import Mathlib

/-!
Shallow embedding of internal/impl/convert.go of the vendored protobuf
runtime: the singular value converters between native Go reflect values
and abstract protoreflect values, together with the factory that selects
a converter from a native type and a field descriptor.

Machine integers are modelled as Nat/Int with explicit wrapping where the
source performs a narrowing cast.  Floating point values are modelled by
their IEEE754 bit patterns; a value of static type float32 or float64 is
a bit pattern of the corresponding width, and the cross-width casts are
modelled by explicit bit-level conversion functions.  Fallible operations
(Go panics) return Except String carrying the panic message.
-/

/-! ### IEEE754 bit-pattern helpers -/

/-- A floating point quantity as a width-tagged bit pattern: `isDouble`
selects binary64, otherwise binary32.  Go code that reads a float out of a
reflect or protoreflect value widens it to float64 and the converters cast
it back; since binary32 to binary64 widening is exact, the pair of a width
flag and the original bits is a faithful representation of the float64
produced by the accessor. -/
structure FloatBits where
  isDouble : Bool
  bits : Nat
  deriving DecidableEq, Repr

/-- Round m / 2 ^ k to the nearest integer, ties to even. -/
def rneShift (m k : Nat) : Nat :=
  let q := m / 2 ^ k
  let r := m % 2 ^ k
  let h := 2 ^ (k - 1)
  if r > h || (r = h && q % 2 = 1) then q + 1 else q

/-- Exact IEEE754 binary32 to binary64 widening on bit patterns. -/
def f32ToF64Bits (b : Nat) : Nat :=
  let s := b / 2 ^ 31 % 2
  let e := b / 2 ^ 23 % 2 ^ 8
  let f := b % 2 ^ 23
  if e = 255 then
    s * 2 ^ 63 + 2047 * 2 ^ 52 + f * 2 ^ 29
  else if e = 0 then
    if f = 0 then s * 2 ^ 63
    else
      let l := Nat.log2 f
      s * 2 ^ 63 + (l + 874) * 2 ^ 52 + (f - 2 ^ l) * 2 ^ (52 - l)
  else s * 2 ^ 63 + (e + 896) * 2 ^ 52 + f * 2 ^ 29

/-- IEEE754 binary64 to binary32 narrowing on bit patterns, rounding to
nearest with ties to even; NaN payloads are quieted keeping the top
fraction bits.  This models the Go cast float32(x). -/
def f64ToF32Bits (b : Nat) : Nat :=
  let s : Nat := b / 2 ^ 63 % 2
  let e : Nat := b / 2 ^ 52 % 2 ^ 11
  let f : Nat := b % 2 ^ 52
  if e = 2047 then
    if f = 0 then s * 2 ^ 31 + 255 * 2 ^ 23
    else s * 2 ^ 31 + 255 * 2 ^ 23 + 2 ^ 22 + f / 2 ^ 29 % 2 ^ 22
  else if e = 0 ∧ f = 0 then s * 2 ^ 31
  else
    let m : Nat := if e = 0 then f else f + 2 ^ 52
    let e2 : Int := if e = 0 then 1 else Int.ofNat e
    let bigE : Int := e2 - 1075 + (Nat.log2 m : Int)
    let u : Int := max (bigE - 23) (-149)
    let d : Int := e2 - 1075 - u
    let r : Nat := if 0 ≤ d then m * 2 ^ d.toNat else rneShift m (-d).toNat
    if r = 0 then s * 2 ^ 31
    else if u = -149 then s * 2 ^ 31 + r
    else
      let re : Nat × Int := if r = 2 ^ 24 then (2 ^ 23, bigE + 1) else (r, bigE)
      if 128 ≤ re.2 then s * 2 ^ 31 + 255 * 2 ^ 23
      else s * 2 ^ 31 + (re.2 + 127).toNat * 2 ^ 23 + (re.1 - 2 ^ 23)

/-- The Go cast float32(x) applied to the float64 produced by a Float
accessor, on the width-tagged representation. -/
def toFloat32 (fb : FloatBits) : Nat :=
  if fb.isDouble then f64ToF32Bits fb.bits else fb.bits

/-- The Go value float64(x) of a Float accessor result, as binary64 bits. -/
def toFloat64 (fb : FloatBits) : Nat :=
  if fb.isDouble then fb.bits else f32ToF64Bits fb.bits

/-- Two-complement wrap of an integer into int32 range: the cast int32(n). -/
def wrap32 (n : Int) : Int := (n + 2 ^ 31) % 2 ^ 32 - 2 ^ 31

/-- Two-complement wrap of an integer into int64 range: the cast int64(n).
The Int accessors already produce int64 range values, so at every call
site this wrap is the identity, mirroring that int64(x) of an int64 is x. -/
def wrap64 (n : Int) : Int := (n + 2 ^ 63) % 2 ^ 64 - 2 ^ 63

/-- The cast uint32(n) on an unsigned quantity. -/
def uwrap32 (n : Nat) : Nat := n % 2 ^ 32

/-- The cast uint64(n) on an unsigned quantity. -/
def uwrap64 (n : Nat) : Nat := n % 2 ^ 64

/-! ### Go reflect types and values -/

/-- The subset of reflect.Kind this core inspects. -/
inductive GoKind where
  | bool | int32 | int64 | uint8 | uint32 | uint64
  | float32 | float64 | string | slice | ptr | struct_
  deriving DecidableEq, Repr

/-- A reflect.Type: a (possibly named) basic type, a slice type (named when
the name is nonempty), a pointer type, or a named struct type.  A struct
type carries the capability flag: whether pointer-to-it implements
protoreflect.ProtoMessage. -/
inductive GoType where
  | prim (name : String) (k : GoKind)
  | slice (name : String) (elem : GoType)
  | ptr (elem : GoType)
  | struct_ (name : String) (protoMsg : Bool)
  deriving DecidableEq, Repr

/-- Type.Kind() of reflect. -/
def GoType.kind : GoType → GoKind
  | .prim _ k => k
  | .slice _ _ => .slice
  | .ptr _ => .ptr
  | .struct_ _ _ => .struct_

/-- Type.Elem() of reflect, as an Option (Elem panics on other kinds). -/
def GoType.elemOf : GoType → Option GoType
  | .slice _ e => some e
  | .ptr e => some e
  | _ => none

/-- Rendering of a reflect.Type by the fmt verb v, used in panic text. -/
def typeName : GoType → String
  | .prim n _ => n
  | .slice n e => if n = "" then "[]" ++ typeName e else n
  | .ptr e => "*" ++ typeName e
  | .struct_ n _ => n

def boolType : GoType := .prim "bool" .bool
def int32Type : GoType := .prim "int32" .int32
def int64Type : GoType := .prim "int64" .int64
def uint32Type : GoType := .prim "uint32" .uint32
def uint64Type : GoType := .prim "uint64" .uint64
def float32Type : GoType := .prim "float32" .float32
def float64Type : GoType := .prim "float64" .float64
def stringType : GoType := .prim "string" .string
def byteType : GoType := .prim "uint8" .uint8
def bytesType : GoType := .slice "" byteType
def enumNumberType : GoType := .prim "protoreflect.EnumNumber" .int32

/-- Contents of one struct (message) instance; kept abstract, only equality
and the zero contents matter to this core. -/
abbrev MsgData := List Nat

/-- Payload of a reflect.Value.  Strings and byte slices carry their byte
content; a byte slice distinguishes the nil slice (none) from a present,
possibly empty, slice (some).  A pointer carries the heap address of its
pointee or none when nil.  addrV is an addressable location produced by
reflect.New followed by Elem, or by Elem of a non-nil pointer; structCopyV
is a non-addressable struct value such as reflect.Zero of a struct type. -/
inductive GoPayload where
  | boolV (b : Bool)
  | intV (n : Int)
  | uintV (n : Nat)
  | floatV (bits : Nat)
  | stringV (s : List Nat)
  | sliceV (b : Option (List Nat))
  | ptrV (addr : Option Nat)
  | addrV (a : Nat)
  | structCopyV (d : MsgData)
  deriving DecidableEq, Repr

/-- A reflect.Value: either the invalid zero Value or a dynamic type with a
payload. -/
inductive GoValue where
  | invalid
  | valid (t : GoType) (p : GoPayload)
  deriving DecidableEq, Repr

/-- Whether a payload is a possible payload for a type of the given kind,
including the value ranges Go guarantees for sized integers and floats.
Every value representable in the Go runtime satisfies this. -/
def GoPayload.fits : GoPayload → GoKind → Bool
  | .boolV _, .bool => true
  | .intV n, .int32 => decide (-(2 ^ 31 : Int) ≤ n ∧ n < 2 ^ 31)
  | .intV n, .int64 => decide (-(2 ^ 63 : Int) ≤ n ∧ n < 2 ^ 63)
  | .uintV n, .uint8 => decide (n < 2 ^ 8)
  | .uintV n, .uint32 => decide (n < 2 ^ 32)
  | .uintV n, .uint64 => decide (n < 2 ^ 64)
  | .floatV b, .float32 => decide (b < 2 ^ 32)
  | .floatV b, .float64 => decide (b < 2 ^ 64)
  | .stringV _, .string => true
  | .sliceV _, .slice => true
  | .ptrV _, .ptr => true
  | .addrV _, .struct_ => true
  | .structCopyV _, .struct_ => true
  | _, _ => false

/-- A well formed reflect.Value: the payload fits the kind of the dynamic
type. -/
def GoValue.WF : GoValue → Bool
  | .invalid => true
  | .valid t p => p.fits t.kind

/-- Value.Bool() of reflect: the boolean, defined on bool kinded values. -/
def GoValue.boolAcc : GoValue → Option Bool
  | .valid _ (.boolV b) => some b
  | _ => none

/-- Value.Int() of reflect: the signed payload as int64. -/
def GoValue.intAcc : GoValue → Option Int
  | .valid _ (.intV n) => some n
  | _ => none

/-- Value.Uint() of reflect: the unsigned payload as uint64. -/
def GoValue.uintAcc : GoValue → Option Nat
  | .valid _ (.uintV n) => some n
  | _ => none

/-- Value.Float() of reflect: the float payload widened to float64, kept as
a width-tagged bit pattern (the widening is exact). -/
def GoValue.floatAcc : GoValue → Option FloatBits
  | .valid t (.floatV b) => some ⟨t.kind = .float64, b⟩
  | _ => none

/-- Value.String() of reflect on a string kinded value. -/
def GoValue.strAcc : GoValue → Option (List Nat)
  | .valid _ (.stringV s) => some s
  | _ => none

/-- Value.Bytes() of reflect on a byte slice value. -/
def GoValue.bytesAcc : GoValue → Option (Option (List Nat))
  | .valid _ (.sliceV b) => some b
  | _ => none

/-- Value.Len() of reflect on strings and slices; the nil slice has
length zero. -/
def GoValue.lenAcc : GoValue → Option Nat
  | .valid _ (.stringV s) => some s.length
  | .valid _ (.sliceV b) => some (b.getD []).length
  | _ => none

/-- The zero payload of each kind, as produced by reflect.Zero. -/
def zeroPayload : GoKind → GoPayload
  | .bool => .boolV false
  | .int32 => .intV 0
  | .int64 => .intV 0
  | .uint8 => .uintV 0
  | .uint32 => .uintV 0
  | .uint64 => .uintV 0
  | .float32 => .floatV 0
  | .float64 => .floatV 0
  | .string => .stringV []
  | .slice => .sliceV none
  | .ptr => .ptrV none
  | .struct_ => .structCopyV []

/-- reflect.Zero(t): the non-addressable zero value of type t. -/
def zeroGoValue (t : GoType) : GoValue := .valid t (zeroPayload t.kind)

/-- Value.Convert(t) of reflect, for the conversions this core performs:
between types of one payload class (a retag), from a string type to a byte
slice type (the converted slice is present even when empty), and from a
byte slice type to a string type (the nil slice converts to the empty
string).  No other conversion is reachable from the converters. -/
def goConvert (v : GoValue) (t : GoType) : GoValue :=
  match v with
  | .invalid => .invalid
  | .valid _ p =>
    match p with
    | .stringV s => if t.kind = .slice then .valid t (.sliceV (some s)) else .valid t (.stringV s)
    | .sliceV b => if t.kind = .string then .valid t (.stringV (b.getD [])) else .valid t (.sliceV b)
    | q => .valid t q

/-! ### Abstract protoreflect values -/

/-- A message handle as seen by this core: whether the message implements
the unwrapper capability, the native value protoUnwrap would return, and
the native value Interface() returns. -/
structure PBMessage where
  unwraps : Bool
  unwrapped : GoValue
  interfaceV : GoValue
  deriving DecidableEq, Repr

/-- A protoreflect.Value: a tagged union over the scalar kinds, strings,
byte sequences (distinguishing the nil sequence), enum numbers and
message handles. -/
inductive PBValue where
  | bool (b : Bool)
  | int32 (n : Int)
  | int64 (n : Int)
  | uint32 (n : Nat)
  | uint64 (n : Nat)
  | float32 (bits : Nat)
  | float64 (bits : Nat)
  | string (s : List Nat)
  | bytes (b : Option (List Nat))
  | enum (n : Int)
  | message (m : PBMessage)
  deriving DecidableEq, Repr

def ValueOfBool (b : Bool) : PBValue := .bool b
def ValueOfInt32 (n : Int) : PBValue := .int32 n
def ValueOfInt64 (n : Int) : PBValue := .int64 n
def ValueOfUint32 (n : Nat) : PBValue := .uint32 n
def ValueOfUint64 (n : Nat) : PBValue := .uint64 n
def ValueOfFloat32 (bits : Nat) : PBValue := .float32 bits
def ValueOfFloat64 (bits : Nat) : PBValue := .float64 bits
def ValueOfString (s : List Nat) : PBValue := .string s
def ValueOfBytes (b : Option (List Nat)) : PBValue := .bytes b
def ValueOfEnum (n : Int) : PBValue := .enum n
def ValueOfMessage (m : PBMessage) : PBValue := .message m

/-- Value.Bool() of protoreflect: defined exactly on bool tagged values. -/
def PBValue.boolAcc : PBValue → Option Bool
  | .bool b => some b
  | _ => none

/-- Value.Int() of protoreflect: defined on int32 and int64 tagged
values. -/
def PBValue.intAcc : PBValue → Option Int
  | .int32 n => some n
  | .int64 n => some n
  | _ => none

/-- Value.Uint() of protoreflect: defined on uint32 and uint64 tagged
values. -/
def PBValue.uintAcc : PBValue → Option Nat
  | .uint32 n => some n
  | .uint64 n => some n
  | _ => none

/-- Value.Float() of protoreflect: defined on float32 and float64 tagged
values, widened to float64 and kept width-tagged. -/
def PBValue.floatAcc : PBValue → Option FloatBits
  | .float32 b => some ⟨false, b⟩
  | .float64 b => some ⟨true, b⟩
  | _ => none

/-- The type assertion .(string) on Value.Interface() of protoreflect. -/
def PBValue.stringAcc : PBValue → Option (List Nat)
  | .string s => some s
  | _ => none

/-- Value.Bytes() of protoreflect: defined on bytes tagged values. -/
def PBValue.bytesAcc : PBValue → Option (Option (List Nat))
  | .bytes b => some b
  | _ => none

/-- Value.Enum() of protoreflect: defined on enum tagged values. -/
def PBValue.enumAcc : PBValue → Option Int
  | .enum n => some n
  | _ => none

/-- Value.Message() of protoreflect: defined on message tagged values. -/
def PBValue.messageAcc : PBValue → Option PBMessage
  | .message m => some m
  | _ => none

def boolZero : PBValue := ValueOfBool false
def int32Zero : PBValue := ValueOfInt32 0
def int64Zero : PBValue := ValueOfInt64 0
def uint32Zero : PBValue := ValueOfUint32 0
def uint64Zero : PBValue := ValueOfUint64 0
def float32Zero : PBValue := ValueOfFloat32 0
def float64Zero : PBValue := ValueOfFloat64 0
def stringZero : PBValue := ValueOfString []
def bytesZero : PBValue := ValueOfBytes none

/-! ### Field descriptors and the message heap -/

/-- Cardinality of protoreflect. -/
inductive Cardinality where
  | optional | required | repeated
  deriving DecidableEq, Repr

/-- Kind of protoreflect: the schema kinds the singular dispatch switches
on. -/
inductive PBKind where
  | bool | int32 | sint32 | sfixed32 | int64 | sint64 | sfixed64
  | uint32 | fixed32 | uint64 | fixed64 | float | double
  | string | bytes | enum | message | group
  deriving DecidableEq, Repr

/-- The slice of a protoreflect.FieldDescriptor this core reads: the list
and map flags, the kind, the cardinality, the declared default value, the
number of the first declared value of the enum type of the field, and the
fully qualified field name used in panic text. -/
structure FieldDescriptor where
  isList : Bool
  isMap : Bool
  kind : PBKind
  cardinality : Cardinality
  defaultValue : PBValue
  enumFirstNumber : Int
  fullName : String
  deriving DecidableEq, Repr

/-- The allocation store for message instances: reflect.New appends a zero
cell and returns its address. -/
structure Heap where
  cells : List MsgData
  deriving DecidableEq, Repr

def Heap.alloc (h : Heap) : Nat × Heap :=
  (h.cells.length, ⟨h.cells ++ [[]]⟩)

def Heap.write (h : Heap) (a : Nat) (d : MsgData) : Heap :=
  ⟨h.cells.set a d⟩

def Heap.read (h : Heap) (a : Nat) : Option MsgData :=
  h.cells[a]?

/-! ### Panic messages and shared checks -/

/-- Result of an operation that may abort with a Go panic; the error case
carries the panic message. -/
abbrev Res (α : Type) := Except String α

instance {ε α : Type} [DecidableEq ε] [DecidableEq α] : DecidableEq (Except ε α) := fun
  | .error e, .error f =>
    if h : e = f then .isTrue (by rw [h])
    else .isFalse (by intro hh; cases hh; exact h rfl)
  | .error _, .ok _ => .isFalse (by intro h; cases h)
  | .ok _, .error _ => .isFalse (by intro h; cases h)
  | .ok a, .ok b =>
    if h : a = b then .isTrue (by rw [h])
    else .isFalse (by intro hh; cases hh; exact h rfl)

/-- The panic raised by the converter methods on an operation-time type
mismatch: invalid type: got .., want .. -/
def typeMismatchMsg (got want : GoType) : String :=
  "invalid type: got " ++ typeName got ++ ", want " ++ typeName want

/-- The reflect panic on accessing a field of the zero Value. -/
def zeroValueMsg : String := "reflect: call on zero Value"

/-- The reflect panic on an accessor applied to a value of the wrong
kind. -/
def badKindMsg : String := "reflect: call on wrong kind"

/-- The protoreflect panic on an accessor applied to a value of the wrong
tag. -/
def badTagMsg : String := "type mismatch: cannot convert value"

/-- The shared guard of every PBValueOf implementation: panic unless the
dynamic type of the argument equals the resolved native type. -/
def checkType (gt : GoType) (v : GoValue) : Res Unit :=
  match v with
  | .invalid => .error zeroValueMsg
  | .valid t _ => if t = gt then .ok () else .error (typeMismatchMsg t gt)

/-! ### Scalar converter operations

Each converter of the source is a struct of its resolved native type and a
precomputed default value; its six methods are modelled one function each,
taking the resolved type as the first argument. -/

def boolPBValueOf (gt : GoType) (v : GoValue) : Res PBValue :=
  match checkType gt v with
  | .error e => .error e
  | .ok _ =>
    match v.boolAcc with
    | some b => .ok (ValueOfBool b)
    | none => .error badKindMsg

def boolGoValueOf (gt : GoType) (pv : PBValue) : Res GoValue :=
  match pv.boolAcc with
  | some b => .ok (goConvert (.valid boolType (.boolV b)) gt)
  | none => .error badTagMsg

def int32PBValueOf (gt : GoType) (v : GoValue) : Res PBValue :=
  match checkType gt v with
  | .error e => .error e
  | .ok _ =>
    match v.intAcc with
    | some n => .ok (ValueOfInt32 (wrap32 n))
    | none => .error badKindMsg

def int32GoValueOf (gt : GoType) (pv : PBValue) : Res GoValue :=
  match pv.intAcc with
  | some n => .ok (goConvert (.valid int32Type (.intV (wrap32 n))) gt)
  | none => .error badTagMsg

def int64PBValueOf (gt : GoType) (v : GoValue) : Res PBValue :=
  match checkType gt v with
  | .error e => .error e
  | .ok _ =>
    match v.intAcc with
    | some n => .ok (ValueOfInt64 (wrap64 n))
    | none => .error badKindMsg

def int64GoValueOf (gt : GoType) (pv : PBValue) : Res GoValue :=
  match pv.intAcc with
  | some n => .ok (goConvert (.valid int64Type (.intV (wrap64 n))) gt)
  | none => .error badTagMsg

def uint32PBValueOf (gt : GoType) (v : GoValue) : Res PBValue :=
  match checkType gt v with
  | .error e => .error e
  | .ok _ =>
    match v.uintAcc with
    | some n => .ok (ValueOfUint32 (uwrap32 n))
    | none => .error badKindMsg

def uint32GoValueOf (gt : GoType) (pv : PBValue) : Res GoValue :=
  match pv.uintAcc with
  | some n => .ok (goConvert (.valid uint32Type (.uintV (uwrap32 n))) gt)
  | none => .error badTagMsg

def uint64PBValueOf (gt : GoType) (v : GoValue) : Res PBValue :=
  match checkType gt v with
  | .error e => .error e
  | .ok _ =>
    match v.uintAcc with
    | some n => .ok (ValueOfUint64 (uwrap64 n))
    | none => .error badKindMsg

def uint64GoValueOf (gt : GoType) (pv : PBValue) : Res GoValue :=
  match pv.uintAcc with
  | some n => .ok (goConvert (.valid uint64Type (.uintV (uwrap64 n))) gt)
  | none => .error badTagMsg

def float32PBValueOf (gt : GoType) (v : GoValue) : Res PBValue :=
  match checkType gt v with
  | .error e => .error e
  | .ok _ =>
    match v.floatAcc with
    | some fb => .ok (ValueOfFloat32 (toFloat32 fb))
    | none => .error badKindMsg

def float32GoValueOf (gt : GoType) (pv : PBValue) : Res GoValue :=
  match pv.floatAcc with
  | some fb => .ok (goConvert (.valid float32Type (.floatV (toFloat32 fb))) gt)
  | none => .error badTagMsg

def float64PBValueOf (gt : GoType) (v : GoValue) : Res PBValue :=
  match checkType gt v with
  | .error e => .error e
  | .ok _ =>
    match v.floatAcc with
    | some fb => .ok (ValueOfFloat64 (toFloat64 fb))
    | none => .error badKindMsg

def float64GoValueOf (gt : GoType) (pv : PBValue) : Res GoValue :=
  match pv.floatAcc with
  | some fb => .ok (goConvert (.valid float64Type (.floatV (toFloat64 fb))) gt)
  | none => .error badTagMsg

/-! ### String, bytes and enum converter operations -/

def stringPBValueOf (gt : GoType) (v : GoValue) : Res PBValue :=
  match checkType gt v with
  | .error e => .error e
  | .ok _ =>
    match (goConvert v stringType).strAcc with
    | some s => .ok (ValueOfString s)
    | none => .error badKindMsg

def stringGoValueOf (gt : GoType) (pv : PBValue) : Res GoValue :=
  match pv.stringAcc with
  | none => .error badTagMsg
  | some s =>
    if gt.kind = .slice ∧ s = [] then .ok (zeroGoValue gt)
    else .ok (goConvert (.valid stringType (.stringV s)) gt)

def bytesPBValueOf (gt : GoType) (v : GoValue) : Res PBValue :=
  match checkType gt v with
  | .error e => .error e
  | .ok _ =>
    if gt.kind = .string ∧ v.lenAcc = some 0 then .ok (ValueOfBytes none)
    else
      match (goConvert v bytesType).bytesAcc with
      | some b => .ok (ValueOfBytes b)
      | none => .error badKindMsg

def bytesGoValueOf (gt : GoType) (pv : PBValue) : Res GoValue :=
  match pv.bytesAcc with
  | some b => .ok (goConvert (.valid bytesType (.sliceV b)) gt)
  | none => .error badTagMsg

def enumPBValueOf (gt : GoType) (v : GoValue) : Res PBValue :=
  match checkType gt v with
  | .error e => .error e
  | .ok _ =>
    match v.intAcc with
    | some n => .ok (ValueOfEnum (wrap32 n))
    | none => .error badKindMsg

def enumGoValueOf (gt : GoType) (pv : PBValue) : Res GoValue :=
  match pv.enumAcc with
  | some n => .ok (goConvert (.valid enumNumberType (.intV n)) gt)
  | none => .error badTagMsg

/-! ### Message converter operations -/

/-- Whether values of the given dynamic type satisfy the type assertion
.(protoreflect.ProtoMessage): a pointer to a struct type carrying the
capability flag. -/
def implsProtoMessage : GoType → Bool
  | .ptr (.struct_ _ pm) => pm
  | _ => false

/-- ValueOfMessage of m.ProtoReflect() for a native value whose type
implements the message capability: the resulting handle is not an
unwrapper and its Interface() returns the native value. -/
def protoReflectWrap (v : GoValue) : PBMessage := ⟨false, v, v⟩

/-- Modelled from the spec: the external legacy wrap adapter
(legacyWrapMessage, defined outside this file) that synthesizes the
message capability for struct shapes that do not implement it; per the
specification its native-form accessor returns the wrapped native value,
and it is not a list or map wrapper, hence not an unwrapper. -/
def legacyWrapMessage (v : GoValue) : PBMessage := ⟨false, v, v⟩

/-- isNonPointer of messageConverter. -/
def isNonPointer (gt : GoType) : Bool := gt.kind ≠ .ptr

def messagePBValueOf (gt : GoType) (v : GoValue) : Res PBValue :=
  match checkType gt v with
  | .error e => .error e
  | .ok _ =>
    let v2 : GoValue :=
      if isNonPointer gt then
        match v with
        | .valid t (.addrV a) => .valid (GoType.ptr t) (.ptrV (some a))
        | .valid t _ => .valid (GoType.ptr t) (.ptrV none)
        | .invalid => .invalid
      else v
    let capable : Bool :=
      match v2 with
      | .valid t _ => implsProtoMessage t
      | .invalid => false
    if capable then .ok (ValueOfMessage (protoReflectWrap v2))
    else .ok (ValueOfMessage (legacyWrapMessage v2))

/-- The value the message converter reads back out of a handle: protoUnwrap
when the handle is an unwrapper, else Interface(). -/
def msgNative (m : PBMessage) : GoValue :=
  if m.unwraps then m.unwrapped else m.interfaceV

def messageGoValueOf (gt : GoType) (pv : PBValue) : Res GoValue :=
  match pv.messageAcc with
  | none => .error badTagMsg
  | some m =>
    let rv := msgNative m
    if isNonPointer gt then
      match rv with
      | .invalid => .error zeroValueMsg
      | .valid t p =>
        if t ≠ GoType.ptr gt then .error (typeMismatchMsg t (GoType.ptr gt))
        else
          match p with
          | .ptrV (some a) =>
            let rv2 : GoValue := .valid gt (.addrV a)
            if gt ≠ gt then .error (typeMismatchMsg gt gt) else .ok rv2
          | .ptrV none =>
            let rv2 := zeroGoValue gt
            if gt ≠ gt then .error (typeMismatchMsg gt gt) else .ok rv2
          | _ => .error badKindMsg
    else
      match rv with
      | .invalid => .error zeroValueMsg
      | .valid t _ => if t ≠ gt then .error (typeMismatchMsg t gt) else .ok rv

def messageIsValidPB (gt : GoType) (pv : PBValue) : Res Bool :=
  match pv.messageAcc with
  | none => .error badTagMsg
  | some m =>
    match msgNative m with
    | .invalid => .error zeroValueMsg
    | .valid t _ =>
      if isNonPointer gt then .ok (decide (t = GoType.ptr gt))
      else .ok (decide (t = gt))

def messageNew (gt : GoType) (h : Heap) : Res PBValue × Heap :=
  if isNonPointer gt then
    let (a, h2) := h.alloc
    (messagePBValueOf gt (.valid gt (.addrV a)), h2)
  else
    let (a, h2) := h.alloc
    let elemT := (gt.elemOf).getD gt
    (messagePBValueOf gt (.valid (GoType.ptr elemT) (.ptrV (some a))), h2)

def messageZero (gt : GoType) : Res PBValue :=
  messagePBValueOf gt (zeroGoValue gt)

/-! ### The converters and the factory -/

/-- The closed union of singular converters the factory can construct; each
variant mirrors one converter struct of the source, carrying the resolved
native type and (except the message converter) the precomputed default
value. -/
inductive Converter where
  | boolConv (goType : GoType) (dv : PBValue)
  | int32Conv (goType : GoType) (dv : PBValue)
  | int64Conv (goType : GoType) (dv : PBValue)
  | uint32Conv (goType : GoType) (dv : PBValue)
  | uint64Conv (goType : GoType) (dv : PBValue)
  | float32Conv (goType : GoType) (dv : PBValue)
  | float64Conv (goType : GoType) (dv : PBValue)
  | stringConv (goType : GoType) (dv : PBValue)
  | bytesConv (goType : GoType) (dv : PBValue)
  | enumConv (goType : GoType) (dv : PBValue)
  | messageConv (goType : GoType)
  deriving DecidableEq, Repr

/-- The resolved native type a converter was built for. -/
def Converter.goTypeD : Converter → GoType
  | .boolConv gt _ => gt
  | .int32Conv gt _ => gt
  | .int64Conv gt _ => gt
  | .uint32Conv gt _ => gt
  | .uint64Conv gt _ => gt
  | .float32Conv gt _ => gt
  | .float64Conv gt _ => gt
  | .stringConv gt _ => gt
  | .bytesConv gt _ => gt
  | .enumConv gt _ => gt
  | .messageConv gt => gt

/-- Whether the converter is one of the seven scalar kind converters. -/
def Converter.isScalar : Converter → Bool
  | .boolConv _ _ => true
  | .int32Conv _ _ => true
  | .int64Conv _ _ => true
  | .uint32Conv _ _ => true
  | .uint64Conv _ _ => true
  | .float32Conv _ _ => true
  | .float64Conv _ _ => true
  | _ => false

def Converter.isEnum : Converter → Bool
  | .enumConv _ _ => true
  | _ => false

def Converter.isMessage : Converter → Bool
  | .messageConv _ => true
  | _ => false

/-- Dynamic dispatch of PBValueOf over the converter union. -/
def Converter.PBValueOf : Converter → GoValue → Res PBValue
  | .boolConv gt _, v => boolPBValueOf gt v
  | .int32Conv gt _, v => int32PBValueOf gt v
  | .int64Conv gt _, v => int64PBValueOf gt v
  | .uint32Conv gt _, v => uint32PBValueOf gt v
  | .uint64Conv gt _, v => uint64PBValueOf gt v
  | .float32Conv gt _, v => float32PBValueOf gt v
  | .float64Conv gt _, v => float64PBValueOf gt v
  | .stringConv gt _, v => stringPBValueOf gt v
  | .bytesConv gt _, v => bytesPBValueOf gt v
  | .enumConv gt _, v => enumPBValueOf gt v
  | .messageConv gt, v => messagePBValueOf gt v

/-- Dynamic dispatch of GoValueOf over the converter union. -/
def Converter.GoValueOf : Converter → PBValue → Res GoValue
  | .boolConv gt _, pv => boolGoValueOf gt pv
  | .int32Conv gt _, pv => int32GoValueOf gt pv
  | .int64Conv gt _, pv => int64GoValueOf gt pv
  | .uint32Conv gt _, pv => uint32GoValueOf gt pv
  | .uint64Conv gt _, pv => uint64GoValueOf gt pv
  | .float32Conv gt _, pv => float32GoValueOf gt pv
  | .float64Conv gt _, pv => float64GoValueOf gt pv
  | .stringConv gt _, pv => stringGoValueOf gt pv
  | .bytesConv gt _, pv => bytesGoValueOf gt pv
  | .enumConv gt _, pv => enumGoValueOf gt pv
  | .messageConv gt, pv => messageGoValueOf gt pv

/-- Dynamic dispatch of IsValidPB.  Every non-message implementation is a
comma-ok type assertion on Interface(), hence total; the message
implementation reads Message() off the value first and can panic. -/
def Converter.IsValidPB : Converter → PBValue → Res Bool
  | .boolConv _ _, pv => .ok (pv.boolAcc).isSome
  | .int32Conv _ _, pv => .ok (pv matches .int32 _)
  | .int64Conv _ _, pv => .ok (pv matches .int64 _)
  | .uint32Conv _ _, pv => .ok (pv matches .uint32 _)
  | .uint64Conv _ _, pv => .ok (pv matches .uint64 _)
  | .float32Conv _ _, pv => .ok (pv matches .float32 _)
  | .float64Conv _ _, pv => .ok (pv matches .float64 _)
  | .stringConv _ _, pv => .ok (pv matches .string _)
  | .bytesConv _ _, pv => .ok (pv matches .bytes _)
  | .enumConv _ _, pv => .ok (pv matches .enum _)
  | .messageConv gt, pv => messageIsValidPB gt pv

/-- Dynamic dispatch of IsValidGo: v.IsValid() && v.Type() == goType in
every implementation; the conjunction short-circuits, so the invalid
Value never reaches Type(). -/
def Converter.IsValidGo (c : Converter) (v : GoValue) : Res Bool :=
  match v with
  | .invalid => .ok false
  | .valid t _ => .ok (decide (t = c.goTypeD))

/-- Dynamic dispatch of New(): the precomputed default for every scalar
shaped converter, a freshly allocated instance for the message
converter. -/
def Converter.New : Converter → Heap → Res PBValue × Heap
  | .boolConv _ dv, h => (.ok dv, h)
  | .int32Conv _ dv, h => (.ok dv, h)
  | .int64Conv _ dv, h => (.ok dv, h)
  | .uint32Conv _ dv, h => (.ok dv, h)
  | .uint64Conv _ dv, h => (.ok dv, h)
  | .float32Conv _ dv, h => (.ok dv, h)
  | .float64Conv _ dv, h => (.ok dv, h)
  | .stringConv _ dv, h => (.ok dv, h)
  | .bytesConv _ dv, h => (.ok dv, h)
  | .enumConv _ dv, h => (.ok dv, h)
  | .messageConv gt, h => messageNew gt h

/-- Dynamic dispatch of Zero(). -/
def Converter.Zero : Converter → Res PBValue
  | .boolConv _ dv => .ok dv
  | .int32Conv _ dv => .ok dv
  | .int64Conv _ dv => .ok dv
  | .uint32Conv _ dv => .ok dv
  | .uint64Conv _ dv => .ok dv
  | .float32Conv _ dv => .ok dv
  | .float64Conv _ dv => .ok dv
  | .stringConv _ dv => .ok dv
  | .bytesConv _ dv => .ok dv
  | .enumConv _ dv => .ok dv
  | .messageConv gt => messageZero gt

/-- The defVal closure of newSingularConverter: the kind zero for repeated
fields, else the declared default of the field. -/
def defVal (fd : FieldDescriptor) (zero : PBValue) : PBValue :=
  if fd.cardinality = .repeated then zero else fd.defaultValue

/-- The construction-time panic of newSingularConverter and the trailing
statement of NewConverter: invalid Go type .. for field .. -/
def invalidGoTypeMsg (t : GoType) (fd : FieldDescriptor) : String :=
  "invalid Go type " ++ typeName t ++ " for field " ++ fd.fullName

def newEnumConverter (goType : GoType) (fd : FieldDescriptor) : Res Converter :=
  let dv :=
    if fd.cardinality = .repeated then ValueOfEnum fd.enumFirstNumber
    else fd.defaultValue
  .ok (.enumConv goType dv)

def newMessageConverter (goType : GoType) : Res Converter :=
  .ok (.messageConv goType)

/-- newSingularConverter: the singular dispatch of the factory.  Each arm
of the kind switch returns on a native type of the expected kind; any arm
that falls through reaches the shared construction-time panic. -/
def newSingularConverter (t : GoType) (fd : FieldDescriptor) : Res Converter :=
  match fd.kind with
  | .bool =>
    if t.kind = .bool then .ok (.boolConv t (defVal fd boolZero))
    else .error (invalidGoTypeMsg t fd)
  | .int32 | .sint32 | .sfixed32 =>
    if t.kind = .int32 then .ok (.int32Conv t (defVal fd int32Zero))
    else .error (invalidGoTypeMsg t fd)
  | .int64 | .sint64 | .sfixed64 =>
    if t.kind = .int64 then .ok (.int64Conv t (defVal fd int64Zero))
    else .error (invalidGoTypeMsg t fd)
  | .uint32 | .fixed32 =>
    if t.kind = .uint32 then .ok (.uint32Conv t (defVal fd uint32Zero))
    else .error (invalidGoTypeMsg t fd)
  | .uint64 | .fixed64 =>
    if t.kind = .uint64 then .ok (.uint64Conv t (defVal fd uint64Zero))
    else .error (invalidGoTypeMsg t fd)
  | .float =>
    if t.kind = .float32 then .ok (.float32Conv t (defVal fd float32Zero))
    else .error (invalidGoTypeMsg t fd)
  | .double =>
    if t.kind = .float64 then .ok (.float64Conv t (defVal fd float64Zero))
    else .error (invalidGoTypeMsg t fd)
  | .string =>
    if t.kind = .string ∨ (t.kind = .slice ∧ t.elemOf = some byteType) then
      .ok (.stringConv t (defVal fd stringZero))
    else .error (invalidGoTypeMsg t fd)
  | .bytes =>
    if t.kind = .string ∨ (t.kind = .slice ∧ t.elemOf = some byteType) then
      .ok (.bytesConv t (defVal fd bytesZero))
    else .error (invalidGoTypeMsg t fd)
  | .enum =>
    if t.kind = .int32 then newEnumConverter t fd
    else .error (invalidGoTypeMsg t fd)
  | .message | .group => newMessageConverter t

/-- The external list and map converter constructors NewConverter delegates
to for repeated and associative fields; they live outside this file and
are kept fully abstract by quantifying over them. -/
structure ExternalConverters where
  newListConverter : GoType → FieldDescriptor → Res Converter
  newMapConverter : GoType → FieldDescriptor → Res Converter

/-- The switch statement of NewConverter: a case that returns yields some,
falling through the whole switch without returning yields none. -/
def NewConverterSwitch (ext : ExternalConverters) (t : GoType)
    (fd : FieldDescriptor) : Option (Res Converter) :=
  if fd.isList then some (ext.newListConverter t fd)
  else if fd.isMap then some (ext.newMapConverter t fd)
  else some (newSingularConverter t fd)

/-- NewConverter: the switch, followed by the trailing panic statement that
is reached only if no case of the switch returned. -/
def NewConverter (ext : ExternalConverters) (t : GoType)
    (fd : FieldDescriptor) : Res Converter :=
  match NewConverterSwitch ext t fd with
  | some r => r
  | none => .error (invalidGoTypeMsg t fd)

/-! ### Helper lemmas -/

/-- The native kind each scalar shaped converter demands at construction:
used to transport construction facts to the operation proofs. -/
def Converter.expectedKind : Converter → Option GoKind
  | .boolConv _ _ => some .bool
  | .int32Conv _ _ => some .int32
  | .int64Conv _ _ => some .int64
  | .uint32Conv _ _ => some .uint32
  | .uint64Conv _ _ => some .uint64
  | .float32Conv _ _ => some .float32
  | .float64Conv _ _ => some .float64
  | .enumConv _ _ => some .int32
  | _ => none

/-- Whether the converter is the string converter. -/
def Converter.isStringConv : Converter → Bool
  | .stringConv _ _ => true
  | _ => false

theorem newSingularConverter_ok_shape (t : GoType) (fd : FieldDescriptor) (c : Converter)
    (h : newSingularConverter t fd = .ok c) :
    c.goTypeD = t ∧ (∀ k, c.expectedKind = some k → t.kind = k) ∧
      (c.isStringConv = true → t.kind = .string ∨ t.kind = .slice) := by
  cases hk : fd.kind <;> simp only [newSingularConverter, hk] at h <;>
  first
    | (split at h
       · injection h with h2
         subst h2
         simp_all [Converter.goTypeD, Converter.expectedKind, Converter.isStringConv]
         try tauto
       · exact Except.noConfusion h)
    | (unfold newMessageConverter at h
       injection h with h2
       subst h2
       simp [Converter.goTypeD, Converter.expectedKind, Converter.isStringConv])

theorem wrap32_eq (n : Int) (h1 : -(2 ^ 31 : Int) ≤ n) (h2 : n < 2 ^ 31) :
    wrap32 n = n := by
  unfold wrap32; omega

theorem wrap64_eq (n : Int) (h1 : -(2 ^ 63 : Int) ≤ n) (h2 : n < 2 ^ 63) :
    wrap64 n = n := by
  unfold wrap64; omega

theorem uwrap32_eq (n : Nat) (h : n < 2 ^ 32) : uwrap32 n = n := by
  unfold uwrap32; omega

theorem uwrap64_eq (n : Nat) (h : n < 2 ^ 64) : uwrap64 n = n := by
  unfold uwrap64; omega

/-! ### Claims about the factory dispatch -/

/-- Claim C10: NewConverter returns the result of exactly one of the three
branch constructors, selected by the list flag, then the map flag, then
the singular dispatch; its switch always returns, so the trailing panic
statement is unreachable for every input. -/
theorem claim_c10_dispatch_total (ext : ExternalConverters) (t : GoType)
    (fd : FieldDescriptor) :
    (NewConverterSwitch ext t fd).isSome = true ∧
    NewConverter ext t fd =
      (if fd.isList then ext.newListConverter t fd
       else if fd.isMap then ext.newMapConverter t fd
       else newSingularConverter t fd) := by
  unfold NewConverter NewConverterSwitch
  cases fd.isList <;> cases fd.isMap <;> simp

/-- Claim C2 fails on the code: the singular dispatch for a message kinded
field constructs a message converter for a native type of kind int32
without raising any construction-time error. -/
theorem claim_c2_counterexample :
    newSingularConverter int32Type
      ⟨false, false, .message, .optional, boolZero, 0, "pkg.M.m"⟩
      = .ok (.messageConv int32Type) := rfl

/-- Claim C2 amended: for fields of message or group kind the singular
dispatch unconditionally constructs a message converter for the supplied
native type, whatever that type is; no construction-time validation is
performed, and shape mismatches surface only at operation time. -/
theorem claim_c2_amended (t : GoType) (fd : FieldDescriptor)
    (h : fd.kind = .message ∨ fd.kind = .group) :
    newSingularConverter t fd = .ok (.messageConv t) := by
  unfold newSingularConverter
  rcases h with h | h <;> rw [h] <;> rfl

theorem claim_c2_witness :
    newSingularConverter stringType
      ⟨false, false, .group, .optional, boolZero, 0, "pkg.M.g"⟩
      = .ok (.messageConv stringType) :=
  claim_c2_amended stringType _ (Or.inr rfl)

/-- Claim C3: constructing a singular converter for kind bool with a
native type of kind int32 aborts at construction time, the failure text
naming the offending native type and the full field name; and PBValueOf of
a factory built string converter applied to a native boolean value aborts,
the failure text naming the actual and the expected type. -/
theorem claim_c3_fatal_on_mismatch :
    (∀ (t : GoType) (fd : FieldDescriptor), t.kind = .int32 → fd.kind = .bool →
        newSingularConverter t fd = .error (invalidGoTypeMsg t fd)) ∧
    (∀ (t : GoType) (fd : FieldDescriptor) (gt : GoType) (dv : PBValue)
        (tb : GoType) (p : GoPayload),
        newSingularConverter t fd = .ok (.stringConv gt dv) → tb.kind = .bool →
        (Converter.stringConv gt dv).PBValueOf (.valid tb p)
          = .error (typeMismatchMsg tb gt)) := by
  constructor
  · intro t fd ht hfd
    unfold newSingularConverter
    rw [hfd, ht]
    rfl
  · intro t fd gt dv tb p hc htb
    have hshape := newSingularConverter_ok_shape t fd _ hc
    have hgt : gt = t := hshape.1
    have hkind : t.kind = .string ∨ t.kind = .slice := hshape.2.2 rfl
    have hne : tb ≠ gt := by
      intro he
      rw [he, hgt] at htb
      rcases hkind with hk | hk <;> rw [hk] at htb <;> cases htb
    simp [Converter.PBValueOf, stringPBValueOf, checkType, hne]

theorem claim_c3_witness :
    newSingularConverter int32Type
        ⟨false, false, .bool, .optional, boolZero, 0, "pkg.M.b"⟩
      = .error (invalidGoTypeMsg int32Type
        ⟨false, false, .bool, .optional, boolZero, 0, "pkg.M.b"⟩) ∧
    (Converter.stringConv stringType (.string [])).PBValueOf
        (.valid boolType (.boolV true))
      = .error (typeMismatchMsg boolType stringType) :=
  ⟨claim_c3_fatal_on_mismatch.1 int32Type _ rfl rfl,
   claim_c3_fatal_on_mismatch.2 stringType
      ⟨false, false, .string, .optional, .string [], 0, "pkg.M.s"⟩
      stringType (.string []) boolType (.boolV true) rfl rfl⟩

/-- Claim C5: the bytes converter over a text shaped native type maps the
empty text value to the nil byte sequence, and the string converter over a
byte slice shaped native type maps the empty abstract text value to the
nil slice, never to an allocated empty one. -/
theorem claim_c5_empty_normalization (gt gs : GoType) (d1 d2 : PBValue)
    (hb : gt.kind = .string) (hs : gs.kind = .slice) :
    (Converter.bytesConv gt d1).PBValueOf (.valid gt (.stringV []))
        = .ok (ValueOfBytes none) ∧
    (Converter.stringConv gs d2).GoValueOf (ValueOfString [])
        = .ok (.valid gs (.sliceV none)) := by
  constructor
  · simp [Converter.PBValueOf, bytesPBValueOf, checkType, hb, GoValue.lenAcc]
  · simp [Converter.GoValueOf, stringGoValueOf, PBValue.stringAcc, ValueOfString,
      hs, zeroGoValue, zeroPayload, ValueOfBytes]

theorem claim_c5_witness :
    (Converter.bytesConv stringType bytesZero).PBValueOf
        (.valid stringType (.stringV []))
      = .ok (ValueOfBytes none) ∧
    (Converter.stringConv bytesType stringZero).GoValueOf (ValueOfString [])
      = .ok (.valid bytesType (.sliceV none)) :=
  claim_c5_empty_normalization stringType bytesType bytesZero stringZero rfl rfl

theorem Heap.read_write_ne (h : Heap) (a b : Nat) (d : MsgData) (hne : a ≠ b) :
    (h.write a d).read b = h.read b := by
  simp only [Heap.write, Heap.read]
  rw [List.getElem?_set_ne hne]

theorem Heap.read_write_self (h : Heap) (a : Nat) (d : MsgData)
    (ha : a < h.cells.length) :
    (h.write a d).read a = some d := by
  simp only [Heap.write, Heap.read]
  rw [List.getElem?_set_self]
  simp [ha]

/-- A reflect type of pointer kind is always built by the ptr constructor;
the prim constructor never carries kind ptr.  Every type the reflect
runtime can produce satisfies this. -/
def GoType.reflectWF : GoType → Bool
  | .prim _ k => decide (k ≠ .ptr)
  | _ => true

/-- The dynamic type of the pointer value a message converter wraps: the
resolved native type itself for the pointer representation, pointer to it
for the non-pointer representation (whose values are converted T to
pointer-to-T inside PBValueOf). -/
def msgPtrType (gt : GoType) : GoType :=
  if isNonPointer gt then GoType.ptr gt else gt

theorem messageConv_New_eq (gt : GoType) (h : Heap) (hw : gt.reflectWF = true) :
    (Converter.messageConv gt).New h
      = (.ok (.message ⟨false, .valid (msgPtrType gt) (.ptrV (some h.cells.length)),
          .valid (msgPtrType gt) (.ptrV (some h.cells.length))⟩),
        ⟨h.cells ++ [[]]⟩) := by
  cases gt with
  | prim n k =>
    have hk : ¬k = GoKind.ptr := by simpa [GoType.reflectWF] using hw
    simp [Converter.New, messageNew, isNonPointer, GoType.kind, hk, Heap.alloc,
      msgPtrType, messagePBValueOf, checkType, implsProtoMessage,
      protoReflectWrap, legacyWrapMessage, ValueOfMessage]
  | slice n e =>
    simp [Converter.New, messageNew, isNonPointer, GoType.kind, Heap.alloc,
      msgPtrType, messagePBValueOf, checkType, implsProtoMessage,
      protoReflectWrap, legacyWrapMessage, ValueOfMessage]
  | ptr e =>
    simp [Converter.New, messageNew, isNonPointer, GoType.kind, Heap.alloc,
      GoType.elemOf, msgPtrType, messagePBValueOf, checkType, implsProtoMessage,
      protoReflectWrap, legacyWrapMessage, ValueOfMessage]
  | struct_ n pm =>
    simp [Converter.New, messageNew, isNonPointer, GoType.kind, Heap.alloc,
      msgPtrType, messagePBValueOf, checkType, implsProtoMessage,
      protoReflectWrap, legacyWrapMessage, ValueOfMessage]

theorem messageConv_Zero_eq (gt : GoType) (hw : gt.reflectWF = true) :
    (Converter.messageConv gt).Zero
      = .ok (.message ⟨false, .valid (msgPtrType gt) (.ptrV none),
          .valid (msgPtrType gt) (.ptrV none)⟩) := by
  cases gt with
  | prim n k =>
    have hk : ¬k = GoKind.ptr := by simpa [GoType.reflectWF] using hw
    cases k <;>
      simp_all [Converter.Zero, messageZero, zeroGoValue, zeroPayload,
        GoType.kind, isNonPointer, msgPtrType, messagePBValueOf, checkType,
        implsProtoMessage, protoReflectWrap, legacyWrapMessage, ValueOfMessage]
  | slice n e =>
    simp [Converter.Zero, messageZero, zeroGoValue, zeroPayload, GoType.kind,
      isNonPointer, msgPtrType, messagePBValueOf, checkType, implsProtoMessage,
      protoReflectWrap, legacyWrapMessage, ValueOfMessage]
  | ptr e =>
    simp [Converter.Zero, messageZero, zeroGoValue, zeroPayload, GoType.kind,
      isNonPointer, msgPtrType, messagePBValueOf, checkType, implsProtoMessage,
      protoReflectWrap, legacyWrapMessage, ValueOfMessage]
  | struct_ n pm =>
    simp [Converter.Zero, messageZero, zeroGoValue, zeroPayload, GoType.kind,
      isNonPointer, msgPtrType, messagePBValueOf, checkType, implsProtoMessage,
      protoReflectWrap, legacyWrapMessage, ValueOfMessage]

/-- Claim C9: for every message converter over a reflect representable
native type, in both representations (pointer, and non-pointer legacy
struct), each call of New() wraps a freshly allocated pointee, two
successive calls yielding distinct addresses, so that storing new contents
through the first instance leaves the cell of the second instance
untouched; while Zero() wraps the zero value of the representation (the
nil pointer; for the non-pointer representation the non-addressable zero
instance, for which PBValueOf substitutes the nil pointer) and allocates
nothing. -/
theorem claim_c9_message_new_fresh (gt : GoType) (h : Heap) (d : MsgData)
    (hw : gt.reflectWF = true) :
    let c : Converter := .messageConv gt
    let a1 : Nat := h.cells.length
    let h3 : Heap := (c.New (c.New h).2).2
    (c.New h).1
        = .ok (.message ⟨false, .valid (msgPtrType gt) (.ptrV (some a1)),
            .valid (msgPtrType gt) (.ptrV (some a1))⟩) ∧
    (c.New (c.New h).2).1
        = .ok (.message ⟨false, .valid (msgPtrType gt) (.ptrV (some (a1 + 1))),
            .valid (msgPtrType gt) (.ptrV (some (a1 + 1)))⟩) ∧
    a1 ≠ a1 + 1 ∧
    (h3.write a1 d).read (a1 + 1) = h3.read (a1 + 1) ∧
    (h3.write a1 d).read a1 = some d ∧
    c.Zero = .ok (.message ⟨false, .valid (msgPtrType gt) (.ptrV none),
        .valid (msgPtrType gt) (.ptrV none)⟩) := by
  dsimp only
  have hne : h.cells.length ≠ h.cells.length + 1 := by omega
  have h1 := messageConv_New_eq gt h hw
  have h2 := messageConv_New_eq gt ⟨h.cells ++ [[]]⟩ hw
  refine ⟨?_, ?_, hne, ?_, ?_, ?_⟩
  · rw [h1]
  · rw [h1]
    dsimp only
    rw [h2]
    simp
  · rw [h1]
    dsimp only
    rw [h2]
    exact Heap.read_write_ne _ _ _ _ hne
  · rw [h1]
    dsimp only
    rw [h2]
    rw [Heap.read_write_self]
    simp
  · exact messageConv_Zero_eq gt hw

theorem claim_c9_witness :
    ((Converter.messageConv (GoType.ptr (.struct_ "M" true))).New ⟨[]⟩).1
        = .ok (.message ⟨false,
            .valid (msgPtrType (GoType.ptr (.struct_ "M" true))) (.ptrV (some 0)),
            .valid (msgPtrType (GoType.ptr (.struct_ "M" true))) (.ptrV (some 0))⟩) ∧
    (Converter.messageConv (GoType.struct_ "M" false)).Zero
        = .ok (.message ⟨false,
            .valid (msgPtrType (GoType.struct_ "M" false)) (.ptrV none),
            .valid (msgPtrType (GoType.struct_ "M" false)) (.ptrV none)⟩) :=
  ⟨(claim_c9_message_new_fresh (GoType.ptr (.struct_ "M" true)) ⟨[]⟩ [] rfl).1,
   (claim_c9_message_new_fresh (GoType.struct_ "M" false) ⟨[]⟩ [] rfl).2.2.2.2.2⟩

/-- Claim C4 fails on the code: the message converter IsValidPB reads
Message() off the abstract value before any tag check, and Message()
panics on an abstract value of the wrong tag. -/
theorem claim_c4_counterexample :
    (Converter.messageConv (GoType.ptr (.struct_ "M" true))).IsValidPB (.bool true)
      = .error badTagMsg := rfl

/-- Claim C4 amended: for every converter produced by the singular factory
dispatch, IsValidGo never fails on any native value; IsValidPB never fails
on any abstract value for every non-message converter; and the message
converter IsValidPB does not fail on message tagged abstract values whose
carried native value is a valid reflect value.  (On abstract values of a
non-message tag the message converter IsValidPB aborts, see the
counterexample.) -/
theorem claim_c4_amended (t : GoType) (fd : FieldDescriptor) (c : Converter)
    (h : newSingularConverter t fd = .ok c) :
    (∀ v, (c.IsValidGo v).isOk = true) ∧
    (c.isMessage = false → ∀ pv, (c.IsValidPB pv).isOk = true) ∧
    (∀ (m : PBMessage) (tm : GoType) (pm : GoPayload),
        msgNative m = .valid tm pm → (c.IsValidPB (.message m)).isOk = true) := by
  refine ⟨?_, ?_, ?_⟩
  · intro v
    cases v <;> simp [Converter.IsValidGo, Except.isOk, Except.toBool]
  · intro hm pv
    cases c <;> simp [Converter.isMessage] at hm ⊢ <;>
      cases pv <;> simp [Converter.IsValidPB, PBValue.boolAcc, Except.isOk, Except.toBool]
  · intro m tm pm hmn
    cases c <;>
      simp [Converter.IsValidPB, messageIsValidPB, PBValue.messageAcc, hmn,
        Except.isOk, Except.toBool, PBValue.boolAcc]
    rename_i gt2
    cases hnp : isNonPointer gt2 <;> simp [hnp]

theorem claim_c4_witness :
    ((Converter.int32Conv int32Type (.int32 5)).IsValidGo
        (.valid boolType (.boolV true))).isOk = true ∧
    ((Converter.int32Conv int32Type (.int32 5)).IsValidPB (.bool true)).isOk = true ∧
    ((Converter.messageConv (GoType.ptr (.struct_ "M" true))).IsValidPB
        (.message ⟨false, .valid (GoType.ptr (.struct_ "M" true)) (.ptrV none),
          .valid (GoType.ptr (.struct_ "M" true)) (.ptrV none)⟩)).isOk = true :=
  ⟨(claim_c4_amended int32Type
      ⟨false, false, .int32, .optional, .int32 5, 0, "pkg.M.f"⟩ _ rfl).1 _,
   (claim_c4_amended int32Type
      ⟨false, false, .int32, .optional, .int32 5, 0, "pkg.M.f"⟩ _ rfl).2.1 rfl _,
   (claim_c4_amended (GoType.ptr (.struct_ "M" true))
      ⟨false, false, .message, .optional, boolZero, 0, "pkg.M.m"⟩ _ rfl).2.2
      _ (GoType.ptr (.struct_ "M" true)) (.ptrV none) rfl⟩

/-! ### Validity disjointness of the scalar kinds -/

/-- The scalar kind a scalar converter was built for. -/
def Converter.scalarKind : Converter → Option GoKind
  | .boolConv _ _ => some .bool
  | .int32Conv _ _ => some .int32
  | .int64Conv _ _ => some .int64
  | .uint32Conv _ _ => some .uint32
  | .uint64Conv _ _ => some .uint64
  | .float32Conv _ _ => some .float32
  | .float64Conv _ _ => some .float64
  | _ => none

/-- The scalar tag carried by an abstract value, if any. -/
def pvScalarTag : PBValue → Option GoKind
  | .bool _ => some .bool
  | .int32 _ => some .int32
  | .int64 _ => some .int64
  | .uint32 _ => some .uint32
  | .uint64 _ => some .uint64
  | .float32 _ => some .float32
  | .float64 _ => some .float64
  | _ => none

theorem isValidPB_scalar_eq (c : Converter) (k : GoKind) (pv : PBValue)
    (hc : c.scalarKind = some k) :
    c.IsValidPB pv = .ok (decide (pvScalarTag pv = some k)) := by
  cases c <;> simp [Converter.scalarKind] at hc <;> subst hc <;> cases pv <;>
    simp [Converter.IsValidPB, pvScalarTag, PBValue.boolAcc]

/-- Claim C6: abstract values valid for one scalar kind converter are never
valid for a converter of a different scalar kind; in particular an int64
tagged value fails IsValidPB on an int32 converter (see the witness). -/
theorem claim_c6_validity_disjoint (c1 c2 : Converter) (k1 k2 : GoKind)
    (pv : PBValue) (h1 : c1.scalarKind = some k1) (h2 : c2.scalarKind = some k2)
    (hne : k1 ≠ k2) (hv : c1.IsValidPB pv = .ok true) :
    c2.IsValidPB pv = .ok false := by
  rw [isValidPB_scalar_eq c1 k1 pv h1] at hv
  rw [isValidPB_scalar_eq c2 k2 pv h2]
  have htag : pvScalarTag pv = some k1 := by simpa using Except.ok.inj hv
  simp [htag, hne]

theorem claim_c6_witness :
    (Converter.int32Conv int32Type int32Zero).IsValidPB (.int64 1) = .ok false :=
  claim_c6_validity_disjoint (.int64Conv int64Type int64Zero)
    (.int32Conv int32Type int32Zero) .int64 .int32 (.int64 1)
    rfl rfl (by decide) rfl

/-! ### Totality of GoValueOf on valid abstract values -/

/-- The dynamic type of the native value inside a successful conversion
result, if that value is a valid reflect value. -/
def resGoType : Res GoValue → Option GoType
  | .ok (.valid t _) => some t
  | _ => none

/-- Claim C8: for every scalar kind converter built by the factory and
every abstract value the converter accepts, GoValueOf succeeds and returns
a native value whose runtime type equals the resolved native type. -/
theorem claim_c8_govalueof_total (t : GoType) (fd : FieldDescriptor)
    (c : Converter) (pv : PBValue) (hc : newSingularConverter t fd = .ok c)
    (hs : c.isScalar = true) (hv : c.IsValidPB pv = .ok true) :
    resGoType (c.GoValueOf pv) = some c.goTypeD := by
  cases c <;> simp [Converter.isScalar] at hs <;>
    cases pv <;> simp [Converter.IsValidPB, PBValue.boolAcc] at hv <;>
    simp [Converter.GoValueOf, boolGoValueOf, int32GoValueOf, int64GoValueOf,
      uint32GoValueOf, uint64GoValueOf, float32GoValueOf, float64GoValueOf,
      PBValue.intAcc, PBValue.uintAcc, PBValue.floatAcc, PBValue.boolAcc,
      goConvert, Converter.goTypeD, resGoType]

theorem claim_c8_witness :
    resGoType ((Converter.int32Conv int32Type (.int32 5)).GoValueOf (.int32 7))
      = some (Converter.int32Conv int32Type (.int32 5)).goTypeD :=
  claim_c8_govalueof_total int32Type
    ⟨false, false, .int32, .optional, .int32 5, 0, "pkg.M.f"⟩
    (.int32Conv int32Type (.int32 5)) (.int32 7) rfl rfl rfl

/-! ### Default correctness -/

/-- The default value prescribed by the specification table for scalar and
enum converters: the declared default of the field when the cardinality is
not repeated; for repeated fields the zero of the kind, except enum, where
it is the number of the first declared value of the enum type of the
field.  This definition follows the words of the specification and is
compared against the constructed converters. -/
def specDefaultValue (c : Converter) (fd : FieldDescriptor) : PBValue :=
  if fd.cardinality = .repeated then
    match c with
    | .boolConv _ _ => boolZero
    | .int32Conv _ _ => int32Zero
    | .int64Conv _ _ => int64Zero
    | .uint32Conv _ _ => uint32Zero
    | .uint64Conv _ _ => uint64Zero
    | .float32Conv _ _ => float32Zero
    | .float64Conv _ _ => float64Zero
    | .stringConv _ _ => stringZero
    | .bytesConv _ _ => bytesZero
    | .enumConv _ _ => ValueOfEnum fd.enumFirstNumber
    | .messageConv _ => boolZero
  else fd.defaultValue

/-- Claim C7: for every scalar or enum converter built by the factory,
New() and Zero() both return the declared default of the field when the
cardinality is not repeated, and for repeated fields the zero of the kind,
except enum converters, which return the number of the first declared
value of the enum type of the field. -/
theorem claim_c7_default_correct (t : GoType) (fd : FieldDescriptor)
    (c : Converter) (h0 : Heap) (hc : newSingularConverter t fd = .ok c)
    (hse : (c.isScalar || c.isEnum) = true) :
    (c.New h0).1 = .ok (specDefaultValue c fd) ∧
    c.Zero = .ok (specDefaultValue c fd) := by
  cases hk : fd.kind <;> simp only [newSingularConverter, hk] at hc <;>
  first
    | (split at hc
       · injection hc with h2
         subst h2
         cases hcard : fd.cardinality <;>
           simp_all [Converter.New, Converter.Zero, specDefaultValue, defVal,
             newEnumConverter]
       · exact Except.noConfusion hc)
    | (injection hc with h2
       subst h2
       simp [Converter.isScalar, Converter.isEnum] at hse)

theorem claim_c7_witness :
    ((Converter.int32Conv int32Type (.int32 5)).New ⟨[]⟩).1
        = .ok (specDefaultValue (.int32Conv int32Type (.int32 5))
            ⟨false, false, .int32, .optional, .int32 5, 0, "pkg.M.f"⟩) ∧
    (Converter.int32Conv int32Type (.int32 5)).Zero
        = .ok (specDefaultValue (.int32Conv int32Type (.int32 5))
            ⟨false, false, .int32, .optional, .int32 5, 0, "pkg.M.f"⟩) ∧
    (Converter.int32Conv int32Type int32Zero).Zero
        = .ok (specDefaultValue (.int32Conv int32Type int32Zero)
            ⟨false, false, .int32, .repeated, .int32 5, 0, "pkg.M.g"⟩) :=
  ⟨(claim_c7_default_correct int32Type
      ⟨false, false, .int32, .optional, .int32 5, 0, "pkg.M.f"⟩ _ ⟨[]⟩ rfl rfl).1,
   (claim_c7_default_correct int32Type
      ⟨false, false, .int32, .optional, .int32 5, 0, "pkg.M.f"⟩ _ ⟨[]⟩ rfl rfl).2,
   (claim_c7_default_correct int32Type
      ⟨false, false, .int32, .repeated, .int32 5, 0, "pkg.M.g"⟩ _ ⟨[]⟩ rfl rfl).2⟩

/-! ### The scalar round trip -/

/-- Claim C1: for every scalar kind converter built by the factory and
every well formed native value whose runtime type equals the resolved
native type, converting to the abstract value and back reproduces the
native value exactly. -/
theorem claim_c1_scalar_round_trip (t : GoType) (fd : FieldDescriptor)
    (c : Converter) (v : GoValue) (hc : newSingularConverter t fd = .ok c)
    (hs : c.isScalar = true) (hwf : v.WF = true)
    (hvg : c.IsValidGo v = .ok true) :
    (c.PBValueOf v).bind c.GoValueOf = .ok v := by
  obtain ⟨hgt, hexp, _⟩ := newSingularConverter_ok_shape t fd c hc
  cases v with
  | invalid => simp [Converter.IsValidGo] at hvg
  | valid tv p =>
    have htv : tv = c.goTypeD := by
      simpa [Converter.IsValidGo] using hvg
    cases c with
    | boolConv gt dv =>
      have hk : t.kind = .bool := hexp _ rfl
      have hgt2 : gt = t := hgt
      subst hgt2
      have htv2 : tv = gt := htv
      subst htv2
      cases p <;> simp [GoValue.WF, GoPayload.fits, hk] at hwf <;>
        simp [Converter.PBValueOf, boolPBValueOf, checkType, GoValue.boolAcc,
          ValueOfBool, Except.bind, Converter.GoValueOf, boolGoValueOf,
          PBValue.boolAcc, goConvert]
    | int32Conv gt dv =>
      have hk : t.kind = .int32 := hexp _ rfl
      have hgt2 : gt = t := hgt
      subst hgt2
      have htv2 : tv = gt := htv
      subst htv2
      cases p <;> simp [GoValue.WF, GoPayload.fits, hk] at hwf <;>
        simp [Converter.PBValueOf, int32PBValueOf, checkType, GoValue.intAcc,
          ValueOfInt32, Except.bind, Converter.GoValueOf, int32GoValueOf,
          PBValue.intAcc, goConvert, wrap32_eq _ hwf.1 hwf.2]
    | int64Conv gt dv =>
      have hk : t.kind = .int64 := hexp _ rfl
      have hgt2 : gt = t := hgt
      subst hgt2
      have htv2 : tv = gt := htv
      subst htv2
      cases p <;> simp [GoValue.WF, GoPayload.fits, hk] at hwf <;>
        simp [Converter.PBValueOf, int64PBValueOf, checkType, GoValue.intAcc,
          ValueOfInt64, Except.bind, Converter.GoValueOf, int64GoValueOf,
          PBValue.intAcc, goConvert, wrap64_eq _ hwf.1 hwf.2]
    | uint32Conv gt dv =>
      have hk : t.kind = .uint32 := hexp _ rfl
      have hgt2 : gt = t := hgt
      subst hgt2
      have htv2 : tv = gt := htv
      subst htv2
      cases p <;> simp [GoValue.WF, GoPayload.fits, hk] at hwf <;>
        simp [Converter.PBValueOf, uint32PBValueOf, checkType, GoValue.uintAcc,
          ValueOfUint32, Except.bind, Converter.GoValueOf, uint32GoValueOf,
          PBValue.uintAcc, goConvert, uwrap32_eq _ hwf]
    | uint64Conv gt dv =>
      have hk : t.kind = .uint64 := hexp _ rfl
      have hgt2 : gt = t := hgt
      subst hgt2
      have htv2 : tv = gt := htv
      subst htv2
      cases p <;> simp [GoValue.WF, GoPayload.fits, hk] at hwf <;>
        simp [Converter.PBValueOf, uint64PBValueOf, checkType, GoValue.uintAcc,
          ValueOfUint64, Except.bind, Converter.GoValueOf, uint64GoValueOf,
          PBValue.uintAcc, goConvert, uwrap64_eq _ hwf]
    | float32Conv gt dv =>
      have hk : t.kind = .float32 := hexp _ rfl
      have hgt2 : gt = t := hgt
      subst hgt2
      have htv2 : tv = gt := htv
      subst htv2
      cases p <;> simp [GoValue.WF, GoPayload.fits, hk] at hwf <;>
        simp [Converter.PBValueOf, float32PBValueOf, checkType, GoValue.floatAcc,
          ValueOfFloat32, Except.bind, Converter.GoValueOf, float32GoValueOf,
          PBValue.floatAcc, goConvert, toFloat32, hk]
    | float64Conv gt dv =>
      have hk : t.kind = .float64 := hexp _ rfl
      have hgt2 : gt = t := hgt
      subst hgt2
      have htv2 : tv = gt := htv
      subst htv2
      cases p <;> simp [GoValue.WF, GoPayload.fits, hk] at hwf <;>
        simp [Converter.PBValueOf, float64PBValueOf, checkType, GoValue.floatAcc,
          ValueOfFloat64, Except.bind, Converter.GoValueOf, float64GoValueOf,
          PBValue.floatAcc, goConvert, toFloat64, hk]
    | stringConv gt dv => simp [Converter.isScalar] at hs
    | bytesConv gt dv => simp [Converter.isScalar] at hs
    | enumConv gt dv => simp [Converter.isScalar] at hs
    | messageConv gt => simp [Converter.isScalar] at hs

theorem claim_c1_witness :
    ((Converter.int32Conv int32Type (.int32 5)).PBValueOf
        (.valid int32Type (.intV 7))).bind
      (Converter.int32Conv int32Type (.int32 5)).GoValueOf
      = .ok (.valid int32Type (.intV 7)) :=
  claim_c1_scalar_round_trip int32Type
    ⟨false, false, .int32, .optional, .int32 5, 0, "pkg.M.f"⟩
    (.int32Conv int32Type (.int32 5)) (.valid int32Type (.intV 7))
    rfl rfl (by decide) rfl
